import Mathlib

/-!  Verification development for the dependency-resolved geometric/numeric
engine of the graphcalc repository (src/unnamed/part_001).  The engine's
functions are shallowly embedded below: JavaScript numbers are modelled as
`Option MQ`, where `MQ` is an exact rational and `none` stands for NaN (the
other non-finite values, ±Infinity, are folded into `none` as well: every
consumer in the embedded code either checks isFinite/isNaN or propagates the
value, so the distinction is not observable in the modelled paths).
JavaScript exceptions are modelled with `Except Err`; a try/catch of the
source becomes an explicit match on the `Except` value at the same place.
The external CAS (nerdamer) and expression evaluator (mathjs) are abstract
capabilities: expressions are embedded as an AST (`Expr`) instead of strings,
and the CAS is a record of possibly-failing operations. -/

set_option maxRecDepth 4000

namespace GraphCalc

/-- Exact rational numbers, stored as an integer numerator and natural
denominator and kept in lowest terms by `MQ.normalize`.  They model the
JavaScript `number` values flowing through the engine (the implementation
computes with IEEE doubles; the model computes exactly).  Every value built
by the embedding has a positive denominator. -/
structure MQ where
  num : Int
  den : Nat
deriving DecidableEq, Repr

/-- Canonical representative of the fraction n / d. -/
def MQ.normalize (n : Int) (d : Nat) : MQ :=
  let g := Nat.gcd n.natAbs d
  if g == 0 then ⟨n, d⟩ else ⟨n / g, d / g⟩

def MQ.ofInt (n : Int) : MQ := ⟨n, 1⟩

def MQ.add (a b : MQ) : MQ := MQ.normalize (a.num * b.den + b.num * a.den) (a.den * b.den)

def MQ.sub (a b : MQ) : MQ := MQ.normalize (a.num * b.den - b.num * a.den) (a.den * b.den)

def MQ.mul (a b : MQ) : MQ := MQ.normalize (a.num * b.num) (a.den * b.den)

def MQ.neg (a : MQ) : MQ := ⟨-a.num, a.den⟩

/-- Division a / b (only ever used after checking b ≠ 0). -/
def MQ.divi (a b : MQ) : MQ := MQ.normalize (a.num * b.den * b.num.sign) (a.den * b.num.natAbs)

def MQ.abs (a : MQ) : MQ := ⟨|a.num|, a.den⟩

/-- Strict order by cross multiplication (valid for positive denominators). -/
def MQ.lt (a b : MQ) : Bool := a.num * b.den < b.num * a.den

def MQ.isZero (a : MQ) : Bool := a.num == 0

def MQ.floor (a : MQ) : Int := a.num.fdiv a.den

/-- JavaScript Math.round: floor(q + 1/2), halves toward +∞. -/
def MQ.roundJS (a : MQ) : Int := (a.add ⟨1, 2⟩).floor

def MQ.powNat (a : MQ) : Nat → MQ
  | 0 => ⟨1, 1⟩
  | n + 1 => a.mul (a.powNat n)

/-- Denotation into Mathlib's rationals, used by the bridge lemmas. -/
def MQ.toRat (a : MQ) : ℚ := (a.num : ℚ) / (a.den : ℚ)

/-- Well-formedness: the denominator is positive. -/
def MQ.wf (a : MQ) : Prop := 0 < a.den

/-- A JavaScript number as observed by the engine: `some q` is a finite
value, `none` is NaN (±Infinity folded in, see the file comment).  Every
comparison against `none` is false, exactly as comparisons with NaN. -/
abbrev V := Option MQ

def vAdd : V → V → V
  | some a, some b => some (a.add b)
  | _, _ => none

def vSub : V → V → V
  | some a, some b => some (a.sub b)
  | _, _ => none

def vMul : V → V → V
  | some a, some b => some (a.mul b)
  | _, _ => none

/-- Division; a zero divisor yields Infinity in JavaScript, folded into `none`. -/
def vDiv : V → V → V
  | some a, some b => if b.isZero then none else some (a.divi b)
  | _, _ => none

def vNeg : V → V
  | some a => some a.neg
  | none => none

def vPow (a : V) (n : Nat) : V :=
  match a with
  | some q => some (q.powNat n)
  | none => none

def vAbs : V → V
  | some a => some a.abs
  | none => none

/-- JavaScript `<` (false whenever either side is NaN). -/
def vLt : V → V → Bool
  | some a, some b => a.lt b
  | _, _ => false

/-- Negation of JavaScript isNaN (a finite value in the model). -/
def vIsNum : V → Bool
  | some _ => true
  | none => false

/-- Left brace as string text (hex escape). -/
def lbrace : String := "\x7b"

/-- Right brace as string text (hex escape). -/
def rbrace : String := "\x7d"

def listPrefixOf : List Char → List Char → Bool
  | [], _ => true
  | _ :: _, [] => false
  | a :: as, b :: bs => a == b && listPrefixOf as bs

def listInfix (pat : List Char) : List Char → Bool
  | [] => listPrefixOf pat []
  | l@(_ :: rest) => listPrefixOf pat l || listInfix pat rest

/-- JavaScript String.prototype.includes. -/
def strContains (s pat : String) : Bool := listInfix pat.toList s.toList

def digitRun : List Char → Nat → Bool
  | [], _ => false
  | c :: cs, k => if c.isDigit then (k + 1 == 5) || digitRun cs (k + 1) else digitRun cs 0

/-- True when the string matches the regular expression of five consecutive digits. -/
def hasFiveDigitRun (s : String) : Bool := digitRun s.toList 0

def padZeros (s : String) (n : Nat) : String :=
  String.mk (List.replicate (n - s.length) (Char.ofNat 48)) ++ s

/-- Decimal rendering of the integer m scaled by 10^(-p), as produced by
JavaScript parseFloat((m / 10^p).toFixed(p)).toString(): trailing zeros are
stripped and "-0" renders as "0". -/
def renderScaled (m : Int) : Nat → String
  | 0 => toString m
  | p + 1 =>
      if m % 10 == 0 then renderScaled (m / 10) p
      else
        (if m < 0 then "-" else "") ++ toString (m.natAbs / 10 ^ (p + 1)) ++ "." ++
          padZeros (toString (m.natAbs % 10 ^ (p + 1))) (p + 1)

/-- JavaScript Number.prototype.toFixed(p) on the exact value (the model
rounds ties away from zero). -/
def toFixedStr (q : MQ) (p : Nat) : String :=
  let neg := q.lt (MQ.ofInt 0)
  let m := ((q.abs.mul (MQ.ofInt (10 ^ p))).add ⟨1, 2⟩).floor
  (if neg then "-" else "") ++ toString (m.toNat / 10 ^ p) ++
    (if p == 0 then "" else "." ++ padZeros (toString (m.toNat % 10 ^ p)) p)

/-- JavaScript parseFloat(q.toFixed(p)).toString(). -/
def stripFixed (q : MQ) (p : Nat) : String :=
  let neg := q.lt (MQ.ofInt 0)
  let m := ((q.abs.mul (MQ.ofInt (10 ^ p))).add ⟨1, 2⟩).floor
  renderScaled (if neg then -m else m) p

/-- Source: formatNumberDecimal (src/unnamed/part_001, lines 24-27). -/
def formatNumberDecimal (num : V) (precision : Nat := 4) : String :=
  match num with
  | none => "NaN"
  | some q => if q.abs.lt ⟨1, 10000000000⟩ then "0" else stripFixed q precision

/-- Abstract syntax of the sanitized algebraic expressions the engine hands
to the external evaluator (the source passes strings; the model works on the
parsed form, so string sanitization is outside the model). -/
inductive Expr
  | const (q : MQ)
  | var (name : String)
  | add (a b : Expr)
  | sub (a b : Expr)
  | mul (a b : Expr)
  | div (a b : Expr)
  | neg (a : Expr)
  | pow (base : Expr) (exponent : Nat)
deriving DecidableEq, Repr

/-- JavaScript exceptions observable in the embedded code: an evaluation
error of the external evaluator (undefined symbol), a failure of the
external CAS, and stack exhaustion from unbounded recursion. -/
inductive Err
  | undefinedSymbol (name : String)
  | casFailure
  | stackOverflow
deriving DecidableEq, Repr

instance exceptDecEq {e a : Type} [DecidableEq e] [DecidableEq a] : DecidableEq (Except e a) := fun x y =>
  match x, y with
  | .ok v, .ok w => if h : v = w then .isTrue (by rw [h]) else .isFalse (by simp [h])
  | .error v, .error w => if h : v = w then .isTrue (by rw [h]) else .isFalse (by simp [h])
  | .ok _, .error _ => .isFalse (by simp)
  | .error _, .ok _ => .isFalse (by simp)

/-- A scope is a name-to-value mapping; the first matching entry wins, so a
JavaScript assignment is modelled by prepending. -/
abbrev Scope := List (String × V)

/-- The external evaluator, math.evaluate: an undefined symbol throws; NaN
operands flow through as values (`none`). -/
def evalE : Expr → Scope → Except Err V
  | .const q, _ => .ok (some q)
  | .var s, sc =>
      match sc.lookup s with
      | some v => .ok v
      | none => .error (.undefinedSymbol s)
  | .add a b, sc => do
      let va ← evalE a sc
      let vb ← evalE b sc
      .ok (vAdd va vb)
  | .sub a b, sc => do
      let va ← evalE a sc
      let vb ← evalE b sc
      .ok (vSub va vb)
  | .mul a b, sc => do
      let va ← evalE a sc
      let vb ← evalE b sc
      .ok (vMul va vb)
  | .div a b, sc => do
      let va ← evalE a sc
      let vb ← evalE b sc
      .ok (vDiv va vb)
  | .neg a, sc => do
      let va ← evalE a sc
      .ok (vNeg va)
  | .pow a n, sc => do
      let va ← evalE a sc
      .ok (vPow va n)

/-- The epsilon of formatNumberToLatex (source line 129). -/
def epsQ : MQ := ⟨1, 1000⟩

/-- The IEEE-double value of JavaScript Math.PI, as an exact rational. -/
def piQ : MQ := ⟨884279719003555, 281474976710656⟩

/-- The fixed denominator set of the pi-fraction test (source line 132). -/
def piDenoms : List Nat := [1, 2, 3, 4, 5, 6, 8, 10, 12, 24]

def fracLatex (n d : Nat) : String :=
  "\\frac" ++ lbrace ++ toString n ++ rbrace ++ lbrace ++ toString d ++ rbrace

/-- The pi-fraction string built at source lines 138-141. -/
def piFracLatex (n : Int) (d : Nat) : String :=
  let numStr := if n.natAbs == 1 then "\\pi" else toString n.natAbs ++ "\\pi"
  let sign := if n < 0 then "-" else ""
  if d == 1 then sign ++ numStr
  else sign ++ "\\frac" ++ lbrace ++ numStr ++ rbrace ++ lbrace ++ toString d ++ rbrace

/-- The denominator loop of formatNumberToLatex (source lines 133-143). -/
def piLoopGo (q : MQ) : List Nat → Option String
  | [] => none
  | d :: ds =>
      let ratio := (q.mul (MQ.ofInt d)).divi piQ
      let n := ratio.roundJS
      if ((ratio.sub (MQ.ofInt n)).abs).lt epsQ then
        some (if n == 0 then "0" else piFracLatex n d)
      else piLoopGo q ds

/-- The external math.fraction, modelled as exact reduction; it mirrors
fraction.js's representation where n is the magnitude of the numerator
(the source renders frac.n, so the sign is as the source shows it). -/
def reduceFrac (q : MQ) : Nat × Nat :=
  let g := Nat.gcd q.num.natAbs q.den
  if g == 0 then (q.num.natAbs, q.den) else (q.num.natAbs / g, q.den / g)

/-- Source: formatNumberToLatex (lines 128-149). -/
def formatNumberToLatex (num : V) (precision : Option Nat := none) : String :=
  match num with
  | none => "NaN"
  | some q =>
      if q.abs.lt epsQ then "0"
      else if ((q.sub (MQ.ofInt q.roundJS)).abs).lt epsQ then toString q.roundJS
      else
        match piLoopGo q piDenoms with
        | some s => s
        | none =>
            let fr := reduceFrac q
            if fr.2 < 20 && fr.1 < 1000 then
              (if fr.2 == 1 then toString fr.1 else fracLatex fr.1 fr.2)
            else stripFixed q (precision.getD 4)

/-- Source: getBestLatex (lines 151-156). -/
def getBestLatex (valNum : V) (rawSymbolic : String) (precision : Option Nat := none) : String :=
  let heuristic := formatNumberToLatex valNum precision
  if strContains heuristic "\\" || strContains heuristic "pi" then heuristic
  else if rawSymbolic != "" && rawSymbolic.length < 20 && !hasFiveDigitRun rawSymbolic then rawSymbolic
  else heuristic

/-- The subtype of a critical-point request (source union 'zeros' | 'min' | 'max'). -/
inductive SolveType
  | zeros
  | min
  | max
deriving DecidableEq, Repr

/-- The type tags of the polymorphic analysis objects (types.ts). -/
inductive AnalysisType
  | freePoint
  | polygon
  | tangent_analysis
  | intersection_analysis
  | func_analysis
  | pointOn_analysis
  | line
  | ray
  | segment
  | slope_analysis
deriving DecidableEq, Repr

inductive PointKind
  | solidPt
  | openPt
  | crossPt
deriving DecidableEq, Repr

/-- Source: the AnalysisObject interface of types.ts.  Ids are number-or-string
in the source and are used only through String(id), so the model stores the
string form directly.  Expressions are stored parsed (`Expr`). -/
structure AnalysisObject where
  id : String
  type : AnalysisType
  subtype : Option SolveType := none
  label : Option String := none
  x : Option MQ := none
  y : Option MQ := none
  xExpr : Option Expr := none
  yExpr : Option Expr := none
  vertices : Option (List String) := none
  targetId : Option String := none
  funcId : Option Int := none
  funcId2 : Option Int := none
  color : Option String := none
  size : Option MQ := none
  pointStyle : Option PointKind := none
  trace : Option Bool := none
deriving DecidableEq, Repr

/-- Source: the MathFunction interface of types.ts, restricted to the fields
the embedded engine reads (id, expression, type, rangeMin, rangeMax, name). -/
inductive FKind
  | function
  | inequality
  | vertical
  | empty
  | implicit
deriving DecidableEq, Repr

structure MathFunction where
  id : Int
  name : String
  expression : Expr
  type : FKind
  rangeMin : Option Expr := none
  rangeMax : Option Expr := none
deriving DecidableEq, Repr

structure MathParam where
  name : String
  value : MQ
  min : MQ := MQ.ofInt 0
  max : MQ := MQ.ofInt 1
  step : MQ := MQ.ofInt 1
deriving DecidableEq, Repr

/-- Source: the CalculatedPoint interface of types.ts, restricted to the
fields calculateWorldPoints writes (m, b, isTangent, isLabelAnchor, lineStyle
and lineWidth are never set by the embedded functions and are omitted). -/
structure CalculatedPoint where
  id : String
  x : V
  y : V
  label : Option String := none
  latex : Option String := none
  color : Option String := none
  isFree : Bool := false
  analysisIndex : Nat
  size : Option MQ := none
  pointStyle : Option PointKind := none
  trace : Option Bool := none
deriving DecidableEq, Repr

structure Bounds where
  min : MQ
  max : MQ
deriving DecidableEq, Repr

/-- JavaScript truthiness of an optional string (the empty string is falsy). -/
def strTruthy : Option String → Bool
  | some s => s != ""
  | none => false

/-- JavaScript truthiness of an optional number field (0 is falsy). -/
def intTruthy : Option Int → Bool
  | some n => n != 0
  | none => false

/-- JavaScript (o || d) for an optional numeric field: 0 and undefined give d. -/
def jsOr (o : Option MQ) (d : MQ) : MQ :=
  match o with
  | some v => if v.isZero then d else v
  | none => d

/-- params.reduce((acc, p) => ({...acc, [p.name]: p.value}), {}): a later
parameter overwrites an earlier one of the same name, so the reversed list
(the first match wins when a Scope is looked up). -/
def paramScope (params : List MathParam) : Scope :=
  (params.map fun p => (p.name, (some p.value : V))).reverse

/-- A root returned by the external CAS's equation solver: its numeric value
(parseFloat of its decimal form; `none` when unparseable) and its TeX form. -/
structure CASRoot where
  val : V
  tex : String
deriving DecidableEq, Repr

/-- The external CAS (nerdamer) as an abstract capability; every operation
may fail (a thrown exception in the source). -/
structure CAS where
  solve : Expr → Except Unit (List CASRoot)
  diff : Expr → Except Unit Expr
  evalAt : Expr → CASRoot → Except Unit (V × String)
  evalAtNum : Expr → V → Except Unit V

structure SolveResult where
  x : V
  y : V
  latex : String
deriving DecidableEq, Repr

/-- Textual substitution of a parameter name by its (parenthesised) value
(source lines 201 and 255: expr.replace(new RegExp(p.name), p.value)). -/
def substInto : Expr → String → MQ → Expr
  | .const q, _, _ => .const q
  | .var s, name, v => if s == name then .const v else .var s
  | .add a b, name, v => .add (substInto a name v) (substInto b name v)
  | .sub a b, name, v => .sub (substInto a name v) (substInto b name v)
  | .mul a b, name, v => .mul (substInto a name v) (substInto b name v)
  | .div a b, name, v => .div (substInto a name v) (substInto b name v)
  | .neg a, name, v => .neg (substInto a name v)
  | .pow a n, name, v => .pow (substInto a name v) n

def substParams (e : Expr) (params : List MathParam) : Expr :=
  params.foldl (fun acc p => substInto acc p.name p.value) e

/-- The step width h = 1e-5 shared by the finite-difference derivatives. -/
def hQ : MQ := ⟨1, 100000⟩

/-- Centered difference (f(x + h) - f(x - h)) / (2 h). -/
def centeredDiff (f : V → V) (x : V) : V :=
  vDiv (vSub (f (vAdd x (some hQ))) (f (vSub x (some hQ)))) (some (hQ.mul (MQ.ofInt 2)))

/-- Centered second difference (f(x + h) - 2 f(x) + f(x - h)) / (h h)
(source line 182). -/
def secondDiff (f : V → V) (x : V) : V :=
  vDiv (vAdd (vSub (f (vAdd x (some hQ))) (vMul (some (MQ.ofInt 2)) (f x))) (f (vSub x (some hQ))))
    (some (hQ.mul hQ))

/-- The compiled target function f of solveClosest (source line 162): an
evaluation error is caught and becomes NaN. -/
def compiledEval (e : Expr) (sc : Scope) (x : V) : V :=
  match evalE e (("x", x) :: sc) with
  | .ok v => v
  | .error _ => none

/-- The Newton-Raphson loop of solveClosest (source lines 166-178).  The Nat
argument is the remaining iteration budget (30 at the call site); the result
is (currentX, found). -/
def newtonLoop (g : V → V) : Nat → V → V × Bool
  | 0, x => (x, false)
  | i + 1, x =>
      let y := g x
      if !(vIsNum y) then (x, false)
      else if vLt (vAbs y) (some ⟨1, 10000000⟩) then (x, true)
      else
        let dg := centeredDiff g x
        if vLt (vAbs dg) (some ⟨1, 1000000000⟩) then (x, false)
        else
          let nextX := vSub x (vDiv y dg)
          if vLt (vAbs (vSub nextX x)) (some ⟨1, 1000000000⟩) then (nextX, true)
          else if vLt (some (MQ.ofInt 1000000)) (vAbs nextX) then (x, false)
          else newtonLoop g i nextX

/-- The target function g of solveClosest (source line 165): the expression
itself for zeros, its centered-difference derivative for min and max. -/
def solveG (expression : Expr) (ty : SolveType) (sc : Scope) : V → V :=
  match ty with
  | .zeros => compiledEval expression sc
  | _ => centeredDiff (compiledEval expression sc)

/-- The acceptance-and-classification tail of solveClosest (source lines
179-193), applied to the Newton loop's final state (currentX, found): accept
when found or when the residual |g(currentX)| is below 1e-3, then for min/max
reject a candidate whose centered second difference clears the 1e-5
threshold in the contradicting direction, and otherwise format the point. -/
def solveFinish (expression : Expr) (ty : SolveType) (sc : Scope) (precision : Nat) (currentX : V) (found : Bool) : Option SolveResult :=
  if found || vLt (vAbs (solveG expression ty sc currentX)) (some ⟨1, 1000⟩) then
    let f := compiledEval expression sc
    let yVal := f currentX
    let fpp := secondDiff f currentX
    if ty == SolveType.max && vLt (some ⟨1, 100000⟩) fpp then none
    else if ty == SolveType.min && vLt fpp (some (MQ.neg ⟨1, 100000⟩)) then none
    else
      let lx := getBestLatex currentX "" (some precision)
      let ly := getBestLatex yVal "" (some precision)
      let labelTex := match ty with
        | .zeros => "P(" ++ lx ++ ", 0)"
        | .max => "\\text" ++ lbrace ++ "Max" ++ rbrace ++ "(" ++ lx ++ ", " ++ ly ++ ")"
        | .min => "\\text" ++ lbrace ++ "Min" ++ rbrace ++ "(" ++ lx ++ ", " ++ ly ++ ")"
      some ⟨currentX, yVal, labelTex⟩
  else none

/-- Source: solveClosest (lines 158-196).  The outer try/catch of the source
guards math.compile of the expression string; the model receives a parsed
AST, and all evaluation errors inside f are already caught at line 162, so
nothing in the body throws. -/
def solveClosest (expression : Expr) (ty : SolveType) (targetX : MQ) (params : List MathParam) (precision : Nat := 2) (scope : Scope := []) : Option SolveResult :=
  let sc := paramScope params ++ scope
  let r := newtonLoop (solveG expression ty sc) 30 (some targetX)
  solveFinish expression ty sc precision r.1 r.2

/-- One root of processRoots for subtype zeros (source lines 207-225, label
function of line 230): a root with a non-finite numeric value is skipped; y
is the constant 0. -/
def processZeroRoot (precision : Nat) (root : CASRoot) : Option SolveResult :=
  match root.val with
  | none => none
  | some xq =>
      let xLatex := getBestLatex (some xq) root.tex (some precision)
      some ⟨some xq, some ⟨0, 1⟩, "P(" ++ xLatex ++ ", 0)"⟩

/-- One root of processRoots for subtype min or max (source lines 207-225,
label function of lines 234-243): the per-root try skips the root on any CAS
failure, and the label function rejects a candidate whose second-derivative
value does not clear the 1e-5 threshold in the matching direction. -/
def processCritRoot (cas : CAS) (exprWithParams : Expr) (ty : SolveType) (derivative : Expr) (precision : Nat) (root : CASRoot) : Option SolveResult :=
  match root.val with
  | none => none
  | some xq =>
      match cas.evalAt exprWithParams root with
      | .error _ => none
      | .ok (yVal, yTex) =>
          let yLatex := getBestLatex yVal yTex (some precision)
          let xLatex := getBestLatex (some xq) root.tex (some precision)
          let label : Option String :=
            match cas.diff derivative with
            | .error _ => none
            | .ok secondDeriv =>
                match cas.evalAtNum secondDeriv (some xq) with
                | .error _ => none
                | .ok conc =>
                    if ty == SolveType.max && vLt conc (some (MQ.neg ⟨1, 100000⟩)) then
                      some ("\\text" ++ lbrace ++ "Max" ++ rbrace ++ "(" ++ xLatex ++ ", " ++ yLatex ++ ")")
                    else if ty == SolveType.min && vLt (some ⟨1, 100000⟩) conc then
                      some ("\\text" ++ lbrace ++ "Min" ++ rbrace ++ "(" ++ xLatex ++ ", " ++ yLatex ++ ")")
                    else none
          match label with
          | some l => some ⟨some xq, yVal, l⟩
          | none => none

/-- Source: solveSymbolic (lines 198-247).  The outer try/catch returns []
on a CAS failure outside the per-root handlers. -/
def solveSymbolic (cas : CAS) (expression : Expr) (ty : SolveType) (params : List MathParam) (precision : Nat := 2) : List SolveResult :=
  let exprWithParams := substParams expression params
  match ty with
  | .zeros =>
      match cas.solve exprWithParams with
      | .ok roots => roots.filterMap (processZeroRoot precision)
      | .error _ => []
  | _ =>
      match cas.diff exprWithParams with
      | .error _ => []
      | .ok derivative =>
          match cas.solve derivative with
          | .ok roots => roots.filterMap (processCritRoot cas exprWithParams ty derivative precision)
          | .error _ => []

/-- A deduplicated intersection candidate (source line 259; the stored exact
flag is never read afterwards and is omitted). -/
structure InterCand where
  x : MQ
  y : MQ
  latex : Option String
deriving DecidableEq, Repr

/-- Source: addCandidate (lines 261-265).  The state is (candidates,
addedHashes); the y argument is undefined at every call site, so y is always
obtained by evaluating curve A; the hash is recorded before that evaluation,
exactly as in the source. -/
def addCandidate (expr1 : Expr) (combinedScope : Scope) (st : List InterCand × List String) (x : V) (latex : Option String) : List InterCand × List String :=
  match x with
  | none => st
  | some xq =>
      let hash := toFixedStr xq 3
      if st.2.contains hash then st
      else
        let hashes := st.2 ++ [hash]
        match evalE expr1 (("x", some xq) :: combinedScope) with
        | .ok (some yq) => (st.1 ++ [⟨xq, yq, latex⟩], hashes)
        | _ => (st.1, hashes)

/-- Per-root candidate collection of solveIntersection (source line 271): a
root whose numeric value is not finite is skipped; its TeX form is kept as
the exact label unless it contains a run of five digits. -/
def interRootStep (expr1 : Expr) (combinedScope : Scope) (st : List InterCand × List String) (r : CASRoot) : List InterCand × List String :=
  match r.val with
  | none => st
  | some xq =>
      if hasFiveDigitRun r.tex then addCandidate expr1 combinedScope st (some xq) none
      else addCandidate expr1 combinedScope st (some xq) (some r.tex)

/-- Stable insertion into a list sorted by distance to t (the comparator of
source line 275). -/
def insertByDist (t : MQ) (c : InterCand) : List InterCand → List InterCand
  | [] => [c]
  | d :: ds => if ((c.x.sub t).abs).lt ((d.x.sub t).abs) then c :: d :: ds else d :: insertByDist t c ds

def sortByDist (t : MQ) (l : List InterCand) : List InterCand :=
  l.foldl (fun acc c => insertByDist t c acc) []

/-- Result formatting of solveIntersection (source lines 277-281). -/
def formatInterResult (precision : Nat) (cand : InterCand) : SolveResult :=
  let lx := match cand.latex with
    | some l => l
    | none => formatNumberToLatex (some cand.x) (some precision)
  let hy := getBestLatex (some cand.y) "" (some precision)
  let ly := if strContains hy "\\" || strContains hy "pi" then hy
    else "\\approx " ++ formatNumberDecimal (some cand.y) precision
  ⟨some cand.x, some cand.y, "I(" ++ lx ++ ", " ++ ly ++ ")"⟩

/-- The candidate collection of solveIntersection (source lines 252-273):
parameter substitution into both expressions, the explicit-and-explicit
check, the CAS solve of expr1 - expr2 (its surrounding try yields no
candidates on failure), and per-root deduplicated candidate admission. -/
def interCandidates (cas : CAS) (f1 f2 : MathFunction) (params : List MathParam) (scope : Scope) : List InterCand :=
  if f1.type == FKind.function && f2.type == FKind.function then
    match cas.solve (Expr.sub (substParams f1.expression params) (substParams f2.expression params)) with
    | .ok roots =>
        (roots.foldl (interRootStep (substParams f1.expression params) (scope ++ paramScope params)) ([], [])).1
    | .error _ => []
  else []

/-- Source: solveIntersection (lines 249-285).  bounds is accepted and never
read, as in the source; the outer try/catch returns [].  With a targetX the
candidates are sorted by distance to it and only a head candidate within 5
world units is kept. -/
def solveIntersection (cas : CAS) (f1 f2 : MathFunction) (params : List MathParam) (precision : Nat := 2) (bounds : Option Bounds := none) (targetX : Option MQ := none) (scope : Scope := []) : List SolveResult :=
  if f1.id == f2.id then []
  else
    let candidates := interCandidates cas f1 f2 params scope
    let finalCandidates :=
      match targetX with
      | none => candidates
      | some t =>
          match sortByDist t candidates with
          | [] => []
          | c :: _ => if ((c.x.sub t).abs).lt (MQ.ofInt 5) then [c] else []
    finalCandidates.map (formatInterResult precision)

/-- One full scan of the while loop of getObjectsToRemove (source lines
456-464); the scan sees additions made earlier in the same pass, exactly as
the forEach over the mutated Set does.  The Bool records whether the scan
added anything. -/
def pruneScan (analyses : List AnalysisObject) (st : List String × Bool) : List String × Bool :=
  analyses.foldl
    (fun st obj =>
      if st.1.contains obj.id then st
      else
        let hasVertexToRemove := match obj.vertices with
          | some vs => vs.any fun vid => st.1.contains vid
          | none => false
        let hasTargetToRemove := match obj.targetId with
          | some t => t != "" && st.1.contains t
          | none => false
        if hasVertexToRemove || hasTargetToRemove then (st.1 ++ [obj.id], true) else st)
    st

def pruneLoop (analyses : List AnalysisObject) : Nat → List String → List String
  | 0, s => s
  | n + 1, s =>
      let st := pruneScan analyses (s, false)
      if st.2 then pruneLoop analyses n st.1 else st.1

/-- Source: getObjectsToRemove (lines 453-467).  Every continuing iteration
of the source's while(changed) loop adds at least one of the analyses' ids to
the set, so analyses.length + 1 scans always reach the fixpoint; the fuel
makes the model total with the same result.  List order is Set insertion
order, as returned by Array.from. -/
def getObjectsToRemove (targetId : String) (analyses : List AnalysisObject) : List String :=
  pruneLoop analyses (analyses.length + 1) [targetId]

mutual

/-- Source: calculateObjectSlope (lines 396-430).  The Nat argument models
the JavaScript call-stack budget: 0 is stack exhaustion, the thrown
RangeError.  The slope_analysis branch recurses without extending
visitedIds, exactly as the source does.  A returned Infinity (vertical
segment, source line 406) is folded into `none`: its only consumers check
isFinite or propagate the value.  The source's three if-blocks fall through
on guard failure; their type guards are mutually exclusive, so the model
dispatches once and yields `none` where every later guard would fail. -/
def calculateObjectSlopeE : Nat → AnalysisObject → List MathFunction → List AnalysisObject → List MathParam → List CalculatedPoint → List String → Except Err (Option MQ)
  | 0, _, _, _, _, _, _ => .error .stackOverflow
  | fuel + 1, obj, functions, analyses, params, calculatedPoints, visitedIds =>
      if visitedIds.contains obj.id then .ok none
      else if obj.type == AnalysisType.slope_analysis && strTruthy obj.targetId then
        match analyses.find? (fun a => some a.id == obj.targetId) with
        | some target => calculateObjectSlopeE fuel target functions analyses params calculatedPoints visitedIds
        | none => .ok none
      else if obj.type == AnalysisType.line || obj.type == AnalysisType.segment || obj.type == AnalysisType.ray then
        match obj.vertices with
        | some [v0, v1] =>
            match calculatedPoints.find? (fun p => p.id == v0), calculatedPoints.find? (fun p => p.id == v1) with
            | some p1, some p2 =>
                if vLt (vAbs (vSub p2.x p1.x)) (some ⟨1, 1000000000⟩) then .ok none
                else .ok (vDiv (vSub p2.y p1.y) (vSub p2.x p1.x))
            | _, _ => .ok none
        | _ => .ok none
      else if obj.type == AnalysisType.tangent_analysis && intTruthy obj.funcId then
        match obj.funcId.bind (fun fid => functions.find? (fun fn => fn.id == fid)) with
        | none => .ok none
        | some f =>
            let x0 : Option V := obj.x.map (fun q => (some q : V))
            let xv : Option V :=
              match obj.vertices with
              | some (v0 :: _) =>
                  match calculatedPoints.find? (fun p => p.id == v0) with
                  | some p => some p.x
                  | none => x0
              | _ => x0
            match xv with
            | none => .ok none
            | some x =>
                match createMathScopeE fuel params calculatedPoints analyses functions (obj.id :: visitedIds) with
                | .error e => .error e
                | .ok scope =>
                    match evalE f.expression (("x", vSub x (some hQ)) :: scope), evalE f.expression (("x", vAdd x (some hQ)) :: scope) with
                    | .ok y1, .ok y2 => .ok (vDiv (vSub y2 y1) (some (hQ.mul (MQ.ofInt 2))))
                    | _, _ => .ok none
      else .ok none

/-- The activeAnalyses loop of createMathScope (source lines 436-449): for
each labeled, unvisited slope-like object whose slope computes to a defined
finite value, the four aliases label, declive_label, slope_label and m_label
are bound to it. -/
def slopeEntriesE : Nat → List AnalysisObject → List MathFunction → List AnalysisObject → List MathParam → List CalculatedPoint → List String → Scope → Except Err Scope
  | 0, _, _, _, _, _, _, _ => .error .stackOverflow
  | _ + 1, [], _, _, _, _, _, sc => .ok sc
  | fuel + 1, an :: rest, functions, analyses, params, calculatedPoints, visitedIds, sc =>
      if strTruthy an.label && !(visitedIds.contains an.id) &&
         (an.type == AnalysisType.line || an.type == AnalysisType.segment || an.type == AnalysisType.ray ||
          an.type == AnalysisType.tangent_analysis || an.type == AnalysisType.slope_analysis) then
        match calculateObjectSlopeE fuel an functions analyses params calculatedPoints visitedIds with
        | .error e => .error e
        | .ok (some s) =>
            let lbl := an.label.getD ""
            slopeEntriesE fuel rest functions analyses params calculatedPoints visitedIds
              (("m_" ++ lbl, some s) :: ("slope_" ++ lbl, some s) :: ("declive_" ++ lbl, some s) :: (lbl, some s) :: sc)
        | .ok none => slopeEntriesE fuel rest functions analyses params calculatedPoints visitedIds sc
      else slopeEntriesE fuel rest functions analyses params calculatedPoints visitedIds sc

/-- Source: createMathScope (lines 432-451): parameters, then x_/y_ entries
of each labeled resolved point, then the slope aliases.  A later JavaScript
assignment wins, so each stage prepends to the scope list. -/
def createMathScopeE : Nat → List MathParam → List CalculatedPoint → List AnalysisObject → List MathFunction → List String → Except Err Scope
  | 0, _, _, _, _, _ => .error .stackOverflow
  | fuel + 1, params, calculatedPoints, activeAnalyses, functions, visitedIds =>
      let scope1 : Scope := paramScope params
      let scope2 : Scope := calculatedPoints.foldl
        (fun sc pt =>
          if strTruthy pt.label then
            let lbl := pt.label.getD ""
            ("y_" ++ lbl, pt.y) :: ("x_" ++ lbl, pt.x) :: sc
          else sc)
        scope1
      slopeEntriesE fuel activeAnalyses functions activeAnalyses params calculatedPoints visitedIds scope2

end

/-- The initial pass of calculateWorldPoints (source lines 471-475): a free
point with no coordinate expression resolves immediately and authoritatively
from its stored coordinates. -/
def initialFreePoints (activeAnalyses : List AnalysisObject) (precision : Nat) : List CalculatedPoint :=
  activeAnalyses.enum.filterMap fun pair =>
    let idx := pair.1
    let an := pair.2
    if an.type == AnalysisType.freePoint && !an.xExpr.isSome && !an.yExpr.isSome then
      let xq := jsOr an.x (MQ.ofInt 0)
      let yq := jsOr an.y (MQ.ofInt 0)
      some { id := an.id, x := some xq, y := some yq, label := an.label,
             latex := (if strTruthy an.label then
                         some ((an.label.getD "") ++ "(" ++ formatNumberDecimal (some xq) precision ++ ", " ++ formatNumberDecimal (some yq) precision ++ ")")
                       else none),
             color := an.color, isFree := true, analysisIndex := idx,
             size := an.size, pointStyle := an.pointStyle, trace := an.trace }
    else none

/-- The expression-point branch of calculateWorldPoints (source lines
482-491): evaluate xExpr/yExpr in the scope, falling back to the stored
coordinate (an.x || 0, an.y || 0) for a missing expression; an evaluation
error (the try/catch) or a non-finite coordinate leaves the object
unresolved. -/
def resolveExprPoint (an : AnalysisObject) (idx : Nat) (scope : Scope) (precision : Nat) (points : List CalculatedPoint) : List CalculatedPoint :=
  let comp : Except Err (V × V) := do
    let x ← match an.xExpr with
      | some ex => evalE ex scope
      | none => .ok (some (jsOr an.x (MQ.ofInt 0)))
    let y ← match an.yExpr with
      | some ey => evalE ey scope
      | none => .ok (some (jsOr an.y (MQ.ofInt 0)))
    .ok (x, y)
  match comp with
  | .error _ => points
  | .ok (some xq, some yq) =>
      let lx := formatNumberDecimal (some xq) precision
      let ly := formatNumberDecimal (some yq) precision
      let pt : CalculatedPoint :=
        { id := an.id, x := some xq, y := some yq, label := an.label,
          latex := (if strTruthy an.label then some ((an.label.getD "") ++ "(" ++ lx ++ ", " ++ ly ++ ")") else none),
          color := an.color, analysisIndex := idx, size := an.size,
          pointStyle := an.pointStyle, trace := an.trace }
      points ++ [pt]
  | .ok _ => points

/-- The point-on-curve branch of calculateWorldPoints (source lines 492-516):
the declared domain bounds are evaluated in the current scope (a non-numeric
or NaN value leaves the corresponding bound at ±Infinity, modelled `none`);
an anchor x outside the evaluated domain, an evaluation error, or a
non-finite y leaves the object unresolved for the pass. -/
def resolvePointOn (functions : List MathFunction) (an : AnalysisObject) (idx : Nat) (scope : Scope) (precision : Nat) (points : List CalculatedPoint) : List CalculatedPoint :=
  match an.funcId.bind (fun fid => functions.find? (fun fn => fn.id == fid)), an.x with
  | some f, some targetX =>
      let comp : Except Err (Option CalculatedPoint) := do
        let rMin : Option MQ ← match f.rangeMin with
          | some e => do
              let val ← evalE e scope
              .ok val
          | none => .ok none
        let rMax : Option MQ ← match f.rangeMax with
          | some e => do
              let val ← evalE e scope
              .ok val
          | none => .ok none
        if (match rMin with | some r => targetX.lt r | none => false) ||
           (match rMax with | some r => r.lt targetX | none => false) then
          .ok none
        else do
          let y ← evalE f.expression (("x", some targetX) :: scope)
          match y with
          | some yq =>
              let lx := formatNumberDecimal (some targetX) precision
              let ly := formatNumberDecimal (some yq) precision
              let pt : CalculatedPoint :=
                { id := an.id, x := some targetX, y := some yq, label := an.label,
                  latex := (if strTruthy an.label then some ((an.label.getD "") ++ "(" ++ lx ++ ", " ++ ly ++ ")") else none),
                  color := an.color, analysisIndex := idx, size := an.size,
                  pointStyle := an.pointStyle, trace := an.trace }
              .ok (some pt)
          | none => .ok none
      match comp with
      | .error _ => points
      | .ok none => points
      | .ok (some pt) => points ++ [pt]
  | _, _ => points

/-- The intersection branch of calculateWorldPoints (source lines 517-526):
only the first intersection result is kept. -/
def resolveInterObj (cas : CAS) (functions : List MathFunction) (params : List MathParam) (precision : Nat) (bounds : Bounds) (an : AnalysisObject) (idx : Nat) (scope : Scope) (points : List CalculatedPoint) : List CalculatedPoint :=
  match an.funcId.bind (fun i => functions.find? (fun f => f.id == i)), an.funcId2.bind (fun i => functions.find? (fun f => f.id == i)) with
  | some f1, some f2 =>
      match solveIntersection cas f1 f2 params precision (some bounds) an.x scope with
      | [] => points
      | pt :: _ =>
          let newPt : CalculatedPoint :=
            { id := an.id, x := pt.x, y := pt.y, label := an.label,
              latex := some pt.latex, color := an.color, analysisIndex := idx,
              size := some (jsOr an.size (MQ.ofInt 5)), pointStyle := an.pointStyle, trace := an.trace }
          points ++ [newPt]
  | _, _ => points

/-- The critical-point branch of calculateWorldPoints (source lines 527-540):
with an anchor x the numeric solver contributes at most one point under the
object's own id; without one the symbolic solver contributes a list of
points under the ids "{id}-{index}". -/
def resolveFuncObj (cas : CAS) (functions : List MathFunction) (params : List MathParam) (precision : Nat) (an : AnalysisObject) (idx : Nat) (scope : Scope) (points : List CalculatedPoint) : List CalculatedPoint :=
  match an.funcId.bind (fun i => functions.find? (fun f => f.id == i)), an.subtype with
  | some f, some subtype =>
      match an.x with
      | some x0 =>
          match solveClosest f.expression subtype x0 params precision scope with
          | some res =>
              let pt : CalculatedPoint :=
                { id := an.id, x := res.x, y := res.y, label := an.label,
                  latex := some res.latex, color := an.color, analysisIndex := idx,
                  size := some (jsOr an.size (MQ.ofInt 5)), pointStyle := an.pointStyle, trace := an.trace }
              points ++ [pt]
          | none => points
      | none =>
          let resList := solveSymbolic cas f.expression subtype params precision
          points ++ resList.enum.map (fun pair =>
            { id := an.id ++ "-" ++ toString pair.1, x := pair.2.x, y := pair.2.y,
              label := (if strTruthy an.label then some ((an.label.getD "") ++ "_" ++ toString (pair.1 + 1)) else none),
              latex := some pair.2.latex, color := an.color, analysisIndex := idx,
              size := some (jsOr an.size (MQ.ofInt 5)), pointStyle := an.pointStyle,
              trace := an.trace })
  | _, _ => points

/-- One object's resolution attempt within a round of calculateWorldPoints
(source lines 478-541): skip when already resolved, build a scope, and
dispatch on the object's shape.  The scope construction of source line 481
is outside every try/catch of the source, so its stack-overflow error
propagates; each branch handles its own failures and is total. -/
def resolveStep (fuel : Nat) (cas : CAS) (functions : List MathFunction) (params : List MathParam) (activeAnalyses : List AnalysisObject) (precision : Nat) (bounds : Bounds) (points : List CalculatedPoint) (idx : Nat) (an : AnalysisObject) : Except Err (List CalculatedPoint) :=
  if points.any (fun p => p.id == an.id) then .ok points
  else
    match createMathScopeE fuel params points activeAnalyses functions [] with
    | .error e => .error e
    | .ok scope =>
        if an.xExpr.isSome || an.yExpr.isSome then
          .ok (resolveExprPoint an idx scope precision points)
        else if an.type == AnalysisType.pointOn_analysis && intTruthy an.funcId then
          .ok (resolvePointOn functions an idx scope precision points)
        else if an.type == AnalysisType.intersection_analysis && intTruthy an.funcId && intTruthy an.funcId2 then
          .ok (resolveInterObj cas functions params precision bounds an idx scope points)
        else if an.type == AnalysisType.func_analysis && intTruthy an.funcId && an.subtype.isSome then
          .ok (resolveFuncObj cas functions params precision an idx scope points)
        else .ok points

/-- One round of the fixed-point loop: the forEach of source line 478. -/
def roundPass (fuel : Nat) (cas : CAS) (functions : List MathFunction) (params : List MathParam) (activeAnalyses : List AnalysisObject) (precision : Nat) (bounds : Bounds) (points : List CalculatedPoint) : Except Err (List CalculatedPoint) :=
  activeAnalyses.enum.foldlM (fun pts pair => resolveStep fuel cas functions params activeAnalyses precision bounds pts pair.1 pair.2) points

/-- The bounded fixed-point iteration of calculateWorldPoints (source lines
476-543): up to 5 rounds, stopping early when a round resolves nothing new. -/
def resolveRounds (fuel : Nat) (cas : CAS) (functions : List MathFunction) (params : List MathParam) (activeAnalyses : List AnalysisObject) (precision : Nat) (bounds : Bounds) : Nat → List CalculatedPoint → Except Err (List CalculatedPoint)
  | 0, pts => .ok pts
  | n + 1, pts =>
      match roundPass fuel cas functions params activeAnalyses precision bounds pts with
      | .error e => .error e
      | .ok pts2 =>
          if pts2.length == pts.length then .ok pts2
          else resolveRounds fuel cas functions params activeAnalyses precision bounds n pts2

/-- Source: calculateWorldPoints (lines 469-545).  fuel models the JavaScript
call-stack budget for the slope/scope recursion (each scope construction
starts from the full budget); cas is the external CAS capability.  The result
is an Except because the source wraps no try/catch around the per-object
scope construction: a stack overflow raised there escapes to the caller. -/
def calculateWorldPointsE (fuel : Nat) (cas : CAS) (functions : List MathFunction) (params : List MathParam) (activeAnalyses : List AnalysisObject) (precision : Nat) (bounds : Bounds) : Except Err (List CalculatedPoint) :=
  resolveRounds fuel cas functions params activeAnalyses precision bounds 5 (initialFreePoints activeAnalyses precision)

/-!  Concrete scenes used by the claim theorems. -/

/-- A CAS whose every operation fails; scenes that exercise no CAS path are
insensitive to it. -/
def trivialCas : CAS := ⟨fun _ => .error (), fun _ => .error (), fun _ _ => .error (), fun _ _ => .error ()⟩

def stdBounds : Bounds := ⟨MQ.ofInt (-10), MQ.ofInt 10⟩

/-- The curve x^2 - 4. -/
def c1Curve : MathFunction :=
  { id := 1, name := "f", expression := Expr.sub (Expr.pow (Expr.var "x") 2) (Expr.const (MQ.ofInt 4)),
    type := FKind.function }

/-- A CAS returning the two exact roots of x^2 - 4 for any solve request
(only that request is made in the C1 scene). -/
def c1Cas : CAS :=
  ⟨fun _ => .ok [⟨some (MQ.ofInt 2), "2"⟩, ⟨some (MQ.ofInt (-2)), "-2"⟩],
   fun _ => .error (), fun _ _ => .error (), fun _ _ => .error ()⟩

/-- A critical-point construction with no anchor x: a multi-result object. -/
def c1Obj : AnalysisObject :=
  { id := "7", type := AnalysisType.func_analysis, subtype := some SolveType.zeros, funcId := some 1 }

/-- C1: the claim says one pass never resolves the same construction twice and
no resolved id (including "{parentId}-{index}" sub-result ids) repeats.  The
code violates it: the already-resolved guard of source line 480 compares
points' ids against String(an.id), but a multi-result critical point stores
its results under "{id}-{index}", so the object is re-resolved in every one of
the five rounds and each sub-result id appears five times. -/
theorem c1_multiresult_object_reresolved_every_round :
    (calculateWorldPointsE 20 c1Cas [c1Curve] [] [c1Obj] 2 stdBounds).map (List.map CalculatedPoint.id) =
      .ok ["7-0", "7-1", "7-0", "7-1", "7-0", "7-1", "7-0", "7-1", "7-0", "7-1"] := by decide

/-- PointA of the cycle-safety scene: its x refers to PointB's. -/
def c2PointA : AnalysisObject :=
  { id := "1", type := AnalysisType.freePoint, label := some "PointA", xExpr := some (Expr.var "x_PointB") }

/-- PointB of the cycle-safety scene: its x refers to PointA's. -/
def c2PointB : AnalysisObject :=
  { id := "2", type := AnalysisType.freePoint, label := some "PointB", xExpr := some (Expr.var "x_PointA") }

/-- C2: the mutually-referential pair terminates (the embedding is total by
construction, mirroring the source's hard 5-round cap), raises nothing (the
result is an .ok, not an .error), and both points are absent from the output;
moreover already the first round resolves nothing, which is what makes the
source's loop break after one round. -/
theorem c2_expression_cycle_terminates_with_both_absent :
    calculateWorldPointsE 20 trivialCas [] [] [c2PointA, c2PointB] 4 stdBounds = .ok [] ∧
    roundPass 20 trivialCas [] [] [c2PointA, c2PointB] 4 stdBounds [] = .ok [] := by decide

/-- The constant expression 0.0005. -/
def c5ConstExpr : Expr := Expr.const ⟨1, 2000⟩

/-- C5 counterexample: for the constant target 0.0005 the centered-difference
derivative is 0 < 1e-9, so the Newton loop aborts unfound on its very first
iteration — and yet solveClosest returns a result, because the residual
fallback |g(x)| < 1e-3 of source line 179 accepts the stopping point.  The
claim's "aborts returning no result (null) whenever the ... derivative
magnitude falls below 1e-9" is therefore false. -/
theorem c5_counterexample_abort_still_returns_result :
    centeredDiff (compiledEval c5ConstExpr (paramScope [])) (some (MQ.ofInt 0)) = some ⟨0, 1⟩ ∧
    newtonLoop (compiledEval c5ConstExpr (paramScope [])) 30 (some (MQ.ofInt 0)) = (some (MQ.ofInt 0), false) ∧
    solveClosest c5ConstExpr SolveType.zeros (MQ.ofInt 0) [] 2 [] =
      some ⟨some (MQ.ofInt 0), some ⟨1, 2000⟩, "P(0, 0)"⟩ := by decide

/-- The expression (1/2000000) x^2: its second derivative is 1e-6, positive
but below the 1e-5 classification tolerance. -/
def c6TinyQuad : Expr := Expr.mul (Expr.const ⟨1, 2000000⟩) (Expr.pow (Expr.var "x") 2)

/-- C6 counterexample: Newton converges to x = 0, where the centered second
difference is 1e-6 — positive, contradicting the requested Max — and the
solver still returns the point, because the rejection of source line 183
fires only above the 1e-5 tolerance.  The claim's "returns null when its
sign contradicts the requested subtype" is therefore false as stated. -/
theorem c6_counterexample_small_contradicting_curvature_kept :
    secondDiff (compiledEval c6TinyQuad (paramScope []))
        ((newtonLoop (centeredDiff (compiledEval c6TinyQuad (paramScope []))) 30 (some (MQ.ofInt 1))).1) =
      some ⟨1, 1000000⟩ ∧
    MQ.lt ⟨0, 1⟩ ⟨1, 1000000⟩ = true ∧
    solveClosest c6TinyQuad SolveType.max (MQ.ofInt 1) [] 2 [] =
      some ⟨some (MQ.ofInt 0), some ⟨0, 1⟩, "\\text\x7bMax\x7d(0, 0)"⟩ := by decide

/-- The curve y = x of the intersection scene. -/
def c7Lin : MathFunction := { id := 1, name := "f", expression := Expr.var "x", type := FKind.function }

/-- The curve y = x^2 of the intersection scene. -/
def c7Sq : MathFunction := { id := 2, name := "g", expression := Expr.pow (Expr.var "x") 2, type := FKind.function }

/-- A CAS answering every solve request with the roots 0 and 1 (the roots of
x - x^2, the only equation posed in the C7 scenes). -/
def c7Cas : CAS :=
  ⟨fun _ => .ok [⟨some (MQ.ofInt 0), "0"⟩, ⟨some (MQ.ofInt 1), "1"⟩],
   fun _ => .error (), fun _ _ => .error (), fun _ _ => .error ()⟩

/-- C7 counterexample: with nearX = 100 the closest candidate (x = 1) is
farther than 5 world units, and the source returns the empty list — not "all
candidates", as the claim's parenthetical asserts: the same scene without
nearX yields both candidates. -/
theorem c7_counterexample_far_near_x_drops_all_candidates :
    solveIntersection c7Cas c7Lin c7Sq [] 2 none (some (MQ.ofInt 100)) [] = [] ∧
    (solveIntersection c7Cas c7Lin c7Sq [] 2 none none []).length = 2 := by decide

/-- C8 counterexample: 113 Math.PI is (trivially) within 1e-3 of a rational
multiple of pi with denominator 1 ∈ {1,2,3,4,5,6,8,10,12,24}, yet it formats
as the integer string "355" — the integer snap of source line 131 runs before
the pi-fraction test, so not every such value renders as a pi-fraction. -/
theorem c8_counterexample_near_integer_pi_multiple_snaps_to_integer :
    ((MQ.mul (MQ.ofInt 113) piQ).sub (MQ.mul (MQ.ofInt 113) piQ)).abs.lt epsQ = true ∧
    1 ∈ piDenoms ∧
    formatNumberToLatex (some (MQ.mul (MQ.ofInt 113) piQ)) none = "355" ∧
    strContains "355" "\\pi" = false := by decide

/-- A freePoint that carries an xExpr (evaluating to 2) together with stored
coordinates x = 9 and y (the parameter). -/
def c10Mixed (yv : MQ) : AnalysisObject :=
  { id := "1", type := AnalysisType.freePoint, x := some (MQ.ofInt 9), y := some yv,
    xExpr := some (Expr.add (Expr.const (MQ.ofInt 0)) (Expr.const (MQ.ofInt 2))) }

/-- C10 counterexample: a freePoint with an xExpr but no yExpr takes its
resolved y directly from the stored y field (source line 485: an.y || 0) —
changing the stored y from 5 to 7 changes the resolved point — so the claim
that "the stored x/y fields are never taken as authoritative coordinates"
for such an object is false. -/
theorem c10_counterexample_stored_y_still_authoritative :
    calculateWorldPointsE 20 trivialCas [] [] [c10Mixed (MQ.ofInt 5)] 2 stdBounds =
      .ok [⟨"1", some (MQ.ofInt 2), some (MQ.ofInt 5), none, none, none, false, 0, none, none, none⟩] ∧
    calculateWorldPointsE 20 trivialCas [] [] [c10Mixed (MQ.ofInt 7)] 2 stdBounds =
      .ok [⟨"1", some (MQ.ofInt 2), some (MQ.ofInt 7), none, none, none, false, 0, none, none, none⟩] := by decide

/-- The Line of the cascade scene, with vertices A and B. -/
def c4Line : AnalysisObject := { id := "l", type := AnalysisType.line, vertices := some ["A", "B"] }

/-- The SlopeValue of the cascade scene, targeting the Line. -/
def c4Slope : AnalysisObject := { id := "sv", type := AnalysisType.slope_analysis, targetId := some "l" }

theorem pruneScan_mem : ∀ (analyses : List AnalysisObject) (st : List String × Bool) (t : String),
    t ∈ st.1 → t ∈ (pruneScan analyses st).1 := by
  intro analyses
  induction analyses with
  | nil => intro st t h; simpa [pruneScan] using h
  | cons a rest ih =>
      intro st t h
      have hstep : t ∈ (pruneScan [a] st).1 := by
        simp only [pruneScan, List.foldl_cons, List.foldl_nil]
        split
        · exact h
        · split
          · exact List.mem_append_left _ h
          · exact h
      have : pruneScan (a :: rest) st = pruneScan rest (pruneScan [a] st) := by
        simp [pruneScan]
      rw [this]
      exact ih _ _ hstep

theorem pruneLoop_mem : ∀ (n : Nat) (analyses : List AnalysisObject) (s : List String) (t : String),
    t ∈ s → t ∈ pruneLoop analyses n s := by
  intro n
  induction n with
  | zero => intro analyses s t h; simpa [pruneLoop] using h
  | succ k ih =>
      intro analyses s t h
      simp only [pruneLoop]
      split
      · exact ih _ _ _ (pruneScan_mem _ _ _ h)
      · exact pruneScan_mem _ _ _ h

/-- C4: pruning vertex A of a Line with a dependent SlopeValue removes exactly
the set containing A, the Line and the SlopeValue (in discovery order: the
Set insertion order the source returns); and for every targetId and every
construction list whatsoever — including a targetId that names no object —
the returned set contains the targetId itself (it seeds the set and scans
only ever add to it). -/
theorem c4_pruner_transitive_closure_and_target_membership :
    getObjectsToRemove "A" [c4Line, c4Slope] = ["A", "l", "sv"] ∧
    ∀ (targetId : String) (analyses : List AnalysisObject), targetId ∈ getObjectsToRemove targetId analyses := by
  constructor
  · decide
  · intro targetId analyses
    exact pruneLoop_mem _ _ _ _ (List.mem_singleton.mpr rfl)

/-- A labeled SlopeValue whose targetId is itself. -/
def c3SelfSlope : AnalysisObject :=
  { id := "s1", type := AnalysisType.slope_analysis, label := some "m1", targetId := some "s1" }

theorem c3_slope_cycle_step (k : Nat) :
    calculateObjectSlopeE (k + 1) c3SelfSlope [] [c3SelfSlope] [] [] [] =
      calculateObjectSlopeE k c3SelfSlope [] [c3SelfSlope] [] [] [] := rfl

theorem c3_slope_cycle_aux : ∀ m, calculateObjectSlopeE m c3SelfSlope [] [c3SelfSlope] [] [] [] =
    .error Err.stackOverflow := by
  intro m
  induction m with
  | zero => rfl
  | succ k ih => rw [c3_slope_cycle_step]; exact ih

/-- C3: the claim says the four public functions never propagate an exception.
The three solvers are caught-everywhere, but calculateWorldPoints is not: the
scope construction of source line 481 sits outside every try, and
calculateObjectSlope's slope_analysis branch (line 400) recurses without
extending the visited set, so a self-targeting SlopeValue recurses without
bound — a stack-overflow exception escapes the public API for every stack
budget. -/
theorem c3_cyclic_slope_reference_raises_for_every_fuel :
    ∀ fuel : Nat, calculateWorldPointsE fuel trivialCas [] [] [c3SelfSlope] 4 stdBounds =
      .error Err.stackOverflow := by
  intro fuel
  match fuel with
  | 0 => rfl
  | 1 => rfl
  | Nat.succ (Nat.succ m) =>
      have h2 := c3_slope_cycle_aux m
      simp only [c3SelfSlope] at h2
      simp [calculateWorldPointsE, resolveRounds, roundPass, resolveStep, createMathScopeE,
        slopeEntriesE, initialFreePoints, c3SelfSlope, strTruthy, paramScope, h2]

/-- C5 amended: the solver budget is 30 Newton iterations (the literal fuel
of solveClosest); an iteration with finite g(x) succeeds at once when
|g(x)| < 1e-7; the loop aborts unfound when |g(x)| ≥ 1e-7 and the
centered-difference derivative magnitude falls below 1e-9 — but an abort
does not by itself yield null: for subtype zeros the solver returns null
exactly when the loop ends unfound AND the residual |g(x)| at the stopping
point fails the looser 1e-3 acceptance check of source line 179. -/
theorem c5_amended_newton_budget_and_abort_semantics :
    (∀ (g : V → V) (n : Nat) (x : V), vIsNum (g x) = true →
        vLt (vAbs (g x)) (some ⟨1, 10000000⟩) = true → newtonLoop g (n + 1) x = (x, true)) ∧
    (∀ (g : V → V) (n : Nat) (x : V), vIsNum (g x) = true →
        vLt (vAbs (g x)) (some ⟨1, 10000000⟩) = false →
        vLt (vAbs (centeredDiff g x)) (some ⟨1, 1000000000⟩) = true →
        newtonLoop g (n + 1) x = (x, false)) ∧
    (∀ (e : Expr) (targetX : MQ) (params : List MathParam) (precision : Nat) (scope : Scope),
        solveClosest e SolveType.zeros targetX params precision scope = none ↔
          ((newtonLoop (compiledEval e (paramScope params ++ scope)) 30 (some targetX)).2 = false ∧
           vLt (vAbs (compiledEval e (paramScope params ++ scope)
                 ((newtonLoop (compiledEval e (paramScope params ++ scope)) 30 (some targetX)).1)))
               (some ⟨1, 1000⟩) = false)) := by
  refine ⟨?_, ?_, ?_⟩
  · intro g n x h1 h2
    simp [newtonLoop, h1, h2]
  · intro g n x h1 h2 h3
    simp [newtonLoop, h1, h2, h3]
  · intro e targetX params precision scope
    cases hf : (newtonLoop (compiledEval e (paramScope params ++ scope)) 30 (some targetX)).2 <;>
      cases hres : vLt (vAbs (compiledEval e (paramScope params ++ scope)
          ((newtonLoop (compiledEval e (paramScope params ++ scope)) 30 (some targetX)).1)))
          (some ⟨1, 1000⟩) <;>
        simp [solveClosest, solveFinish, solveG, hf, hres]

/-- Witness for C5's amended statement: at the concrete input g(x) = 2x - 2
from x = 100 the first-iteration success rule applies at the root, the abort
rule applies to the constant 0.0005, and the null characterization holds for
the expression x - x (identically 0 at every x, accepted at once). -/
theorem c5_amended_witness :
    newtonLoop (fun x => vSub (vAdd x x) (some (MQ.ofInt 2))) 30 (some (MQ.ofInt 1)) = (some (MQ.ofInt 1), true) ∧
    newtonLoop (compiledEval c5ConstExpr (paramScope [])) 7 (some (MQ.ofInt 0)) = (some (MQ.ofInt 0), false) ∧
    solveClosest (Expr.sub (Expr.var "x") (Expr.var "x")) SolveType.zeros (MQ.ofInt 3) [] 2 [] ≠ none := by
  refine ⟨?_, ?_, ?_⟩
  · exact c5_amended_newton_budget_and_abort_semantics.1 _ 29 _ (by decide) (by decide)
  · exact c5_amended_newton_budget_and_abort_semantics.2.1 _ 6 _ (by decide) (by decide) (by decide)
  · intro hnone
    have h := (c5_amended_newton_budget_and_abort_semantics.2.2
      (Expr.sub (Expr.var "x") (Expr.var "x")) (MQ.ofInt 3) [] 2 []).mp hnone
    revert h
    decide

/-- C6 amended: for subtype Min or Max the solver evaluates the centered
second difference at the Newton loop's final x and returns null when it
clears the 1e-5 tolerance in the direction contradicting the request
(fpp > 1e-5 for Max, fpp < -1e-5 for Min); a sign contradiction within the
tolerance is not rejected.  In particular solveClosest("-(x^2)", max, 1)
returns the point (0, 0) and solveClosest("-(x^2)", min, 1) returns null. -/
theorem c6_amended_curvature_threshold_classification :
    (∀ (e : Expr) (targetX : MQ) (params : List MathParam) (precision : Nat) (scope : Scope),
        vLt (some ⟨1, 100000⟩)
            (secondDiff (compiledEval e (paramScope params ++ scope))
              ((newtonLoop (centeredDiff (compiledEval e (paramScope params ++ scope))) 30 (some targetX)).1)) = true →
        solveClosest e SolveType.max targetX params precision scope = none) ∧
    (∀ (e : Expr) (targetX : MQ) (params : List MathParam) (precision : Nat) (scope : Scope),
        vLt (secondDiff (compiledEval e (paramScope params ++ scope))
              ((newtonLoop (centeredDiff (compiledEval e (paramScope params ++ scope))) 30 (some targetX)).1))
            (some (MQ.neg ⟨1, 100000⟩)) = true →
        solveClosest e SolveType.min targetX params precision scope = none) ∧
    solveClosest (Expr.neg (Expr.pow (Expr.var "x") 2)) SolveType.max (MQ.ofInt 1) [] 2 [] =
      some ⟨some (MQ.ofInt 0), some ⟨0, 1⟩, "\\text\x7bMax\x7d(0, 0)"⟩ ∧
    solveClosest (Expr.neg (Expr.pow (Expr.var "x") 2)) SolveType.min (MQ.ofInt 1) [] 2 [] = none := by
  refine ⟨?_, ?_, ?_, ?_⟩
  · intro e targetX params precision scope h
    simp [solveClosest, solveFinish, solveG, h]
  · intro e targetX params precision scope h
    simp [solveClosest, solveFinish, solveG, h]
  · decide
  · decide

/-- Witness for C6's amended statement: the quadratic x^2 has second
difference 2 > 1e-5 at the converged point 0, so a requested Max there is
rejected; the mirrored -(x^2) case is rejected for Min. -/
theorem c6_amended_witness :
    solveClosest (Expr.pow (Expr.var "x") 2) SolveType.max (MQ.ofInt 1) [] 2 [] = none ∧
    solveClosest (Expr.neg (Expr.pow (Expr.var "x") 2)) SolveType.min (MQ.ofInt 1) [] 2 [] = none := by
  constructor
  · exact c6_amended_curvature_threshold_classification.1 _ _ [] 2 [] (by decide)
  · exact c6_amended_curvature_threshold_classification.2.1 _ _ [] 2 [] (by decide)

/-- The curve of the C9 scene: id 1, explicit, with declared domain bounds. -/
def c9Fn (e bmin bmax : Expr) : MathFunction :=
  { id := 1, name := "f", expression := e, type := FKind.function, rangeMin := some bmin, rangeMax := some bmax }

/-- The point-on-curve construction of the C9 scene, anchored at xq. -/
def c9PointOn (xq : MQ) : AnalysisObject :=
  { id := "3", type := AnalysisType.pointOn_analysis, funcId := some 1, x := some xq }

/-- C9: in a scene with one point-on-curve construction whose curve declares
domain bounds, an anchor x outside the evaluated domain produces no resolved
point for the pass, and an anchor inside it — with the curve evaluating to a
finite y — produces exactly the resolved point (x, y).  The bounds are
expressions evaluated in the pass's scope (constants here, since the scope
of this scene is empty). -/
theorem c9_point_on_curve_domain_gating :
    ∀ (e : Expr) (rmin rmax xq : MQ),
      ((xq.lt rmin || rmax.lt xq) = true →
        calculateWorldPointsE 20 trivialCas [c9Fn e (Expr.const rmin) (Expr.const rmax)] [] [c9PointOn xq] 2 stdBounds = .ok []) ∧
      ((xq.lt rmin || rmax.lt xq) = false →
        ∀ yq : MQ, evalE e [("x", some xq)] = .ok (some yq) →
          calculateWorldPointsE 20 trivialCas [c9Fn e (Expr.const rmin) (Expr.const rmax)] [] [c9PointOn xq] 2 stdBounds =
            .ok [⟨"3", some xq, some yq, none, none, none, false, 0, none, none, none⟩]) := by
  intro e rmin rmax xq
  constructor
  · intro hcond
    rcases (by simpa using hcond : xq.lt rmin = true ∨ rmax.lt xq = true) with h | h <;>
      simp [calculateWorldPointsE, resolveRounds, roundPass, resolveStep, resolvePointOn,
        createMathScopeE, slopeEntriesE, initialFreePoints, c9Fn, c9PointOn, strTruthy, intTruthy,
        paramScope, evalE, Except.instMonad, Except.bind, Except.pure, h]
  · intro hcond yq hy
    simp only [Bool.or_eq_false_iff] at hcond
    simp [calculateWorldPointsE, resolveRounds, roundPass, resolveStep, resolvePointOn,
      createMathScopeE, slopeEntriesE, initialFreePoints, c9Fn, c9PointOn, strTruthy, intTruthy,
      paramScope, evalE, Except.instMonad, Except.bind, Except.pure, hcond.1, hcond.2, hy]

/-- Witness for C9: on the curve x^2 with domain [0, 10], the anchor x = 20
resolves to nothing and the anchor x = 3 resolves to the point (3, 9). -/
theorem c9_point_on_curve_domain_witness :
    calculateWorldPointsE 20 trivialCas [c9Fn (Expr.pow (Expr.var "x") 2) (Expr.const (MQ.ofInt 0)) (Expr.const (MQ.ofInt 10))] [] [c9PointOn (MQ.ofInt 20)] 2 stdBounds = .ok [] ∧
    calculateWorldPointsE 20 trivialCas [c9Fn (Expr.pow (Expr.var "x") 2) (Expr.const (MQ.ofInt 0)) (Expr.const (MQ.ofInt 10))] [] [c9PointOn (MQ.ofInt 3)] 2 stdBounds =
      .ok [⟨"3", some (MQ.ofInt 3), some (MQ.ofInt 9), none, none, none, false, 0, none, none, none⟩] := by
  constructor
  · exact (c9_point_on_curve_domain_gating (Expr.pow (Expr.var "x") 2) (MQ.ofInt 0) (MQ.ofInt 10) (MQ.ofInt 20)).1 (by decide)
  · exact (c9_point_on_curve_domain_gating (Expr.pow (Expr.var "x") 2) (MQ.ofInt 0) (MQ.ofInt 10) (MQ.ofInt 3)).2 (by decide) (MQ.ofInt 9) (by decide)

theorem enumFrom_snd_mem {α : Type} : ∀ (l : List α) (n : Nat) (p : Nat × α), p ∈ List.enumFrom n l → p.2 ∈ l := by
  intro l
  induction l with
  | nil => intro n p h; simp [List.enumFrom] at h
  | cons a rest ih =>
      intro n p h
      simp only [List.enumFrom, List.mem_cons] at h
      rcases h with h | h
      · subst h; exact List.mem_cons_self _ _
      · exact List.mem_cons_of_mem _ (ih _ _ h)

/-- A freePoint carrying an xExpr together with stored coordinates. -/
def c10Scene (ex : Expr) (xs ys : MQ) : AnalysisObject :=
  { id := "1", type := AnalysisType.freePoint, x := some xs, y := some ys, xExpr := some ex }

/-- C10 amended: only freePoints with neither xExpr nor yExpr are resolved in
the initial authoritative step (every initial-pass point stems from such an
object); a freePoint carrying an xExpr is instead resolved in the iterative
rounds by evaluating the expression — and the coordinate that has no
expression falls back to the stored field (JavaScript an.y || 0), which
remains authoritative for that coordinate. -/
theorem c10_expression_freepoint_resolution :
    (∀ (analyses : List AnalysisObject) (precision : Nat) (pt : CalculatedPoint),
        pt ∈ initialFreePoints analyses precision →
        ∃ an ∈ analyses, an.type = AnalysisType.freePoint ∧ an.xExpr = none ∧ an.yExpr = none ∧ pt.id = an.id) ∧
    (∀ (ex : Expr) (xs ys xv : MQ),
        evalE ex [] = .ok (some xv) →
        calculateWorldPointsE 20 trivialCas [] [] [c10Scene ex xs ys] 2 stdBounds =
          .ok [⟨"1", some xv, some (jsOr (some ys) (MQ.ofInt 0)), none, none, none, false, 0, none, none, none⟩]) := by
  constructor
  · intro analyses precision pt hmem
    simp only [initialFreePoints, List.mem_filterMap] at hmem
    obtain ⟨pair, hpair, hcond⟩ := hmem
    split at hcond
    case isTrue hc =>
        refine ⟨pair.2, enumFrom_snd_mem _ _ _ hpair, ?_⟩
        simp only [Bool.and_eq_true, beq_iff_eq, Bool.not_eq_true'] at hc
        obtain ⟨⟨ht, hx⟩, hy⟩ := hc
        rw [Option.some_inj] at hcond
        subst hcond
        exact ⟨ht, Option.not_isSome_iff_eq_none.mp (by simp [hx]),
          Option.not_isSome_iff_eq_none.mp (by simp [hy]), rfl⟩
    case isFalse => simp at hcond
  · intro ex xs ys xv hx
    simp [calculateWorldPointsE, resolveRounds, roundPass, resolveStep, resolveExprPoint,
      createMathScopeE, slopeEntriesE, initialFreePoints, c10Scene, strTruthy, intTruthy,
      paramScope, Except.instMonad, Except.bind, Except.pure, hx]

/-- Witness for C10's amended statement: the freePoint with xExpr 0 + 2 and
stored coordinates (9, 5) resolves during the rounds to (2, 5). -/
theorem c10_expression_freepoint_witness :
    calculateWorldPointsE 20 trivialCas [] [] [c10Scene (Expr.add (Expr.const (MQ.ofInt 0)) (Expr.const (MQ.ofInt 2))) (MQ.ofInt 9) (MQ.ofInt 5)] 2 stdBounds =
      .ok [⟨"1", some (MQ.ofInt 2), some (jsOr (some (MQ.ofInt 5)) (MQ.ofInt 0)), none, none, none, false, 0, none, none, none⟩] :=
  c10_expression_freepoint_resolution.2 (Expr.add (Expr.const (MQ.ofInt 0)) (Expr.const (MQ.ofInt 2))) (MQ.ofInt 9) (MQ.ofInt 5) (MQ.ofInt 2) (by decide)

/-!  Bridge lemmas: the denotation of MQ values and operations into Mathlib's
rationals, valid for positive denominators (which every value built by the
embedding has). -/

theorem MQ.toRat_ofInt (n : Int) : (MQ.ofInt n).toRat = (n : ℚ) := by
  simp [MQ.ofInt, MQ.toRat]

theorem MQ.normalize_den_pos {n : Int} {d : Nat} (hd : 0 < d) : 0 < (MQ.normalize n d).den := by
  simp only [MQ.normalize]
  split
  · exact hd
  · rename_i hg
    have hg2 : Nat.gcd n.natAbs d ≠ 0 := by simpa using hg
    exact Nat.div_pos (Nat.le_of_dvd hd (Nat.gcd_dvd_right _ _)) (Nat.pos_of_ne_zero hg2)

theorem MQ.toRat_normalize (n : Int) (d : Nat) : (MQ.normalize n d).toRat = (n : ℚ) / (d : ℚ) := by
  simp only [MQ.normalize]
  split
  · rfl
  · rename_i hg
    have hg2 : Nat.gcd n.natAbs d ≠ 0 := by simpa using hg
    have hdvdn : ((Nat.gcd n.natAbs d : Int)) ∣ n := by
      have h1 : (Nat.gcd n.natAbs d : Int) ∣ (n.natAbs : Int) := Int.natCast_dvd_natCast.mpr (Nat.gcd_dvd_left _ _)
      exact h1.trans (Int.natAbs_dvd.mpr dvd_rfl)
    have hdvdd : Nat.gcd n.natAbs d ∣ d := Nat.gcd_dvd_right _ _
    unfold MQ.toRat
    set g := Nat.gcd n.natAbs d with hgdef
    have hgpos : 0 < g := Nat.pos_of_ne_zero hg2
    obtain ⟨n2, hn2⟩ := hdvdn
    obtain ⟨d2, hd2x⟩ := hdvdd
    rw [hn2, hd2x, Int.mul_ediv_cancel_left _ (by exact_mod_cast hg2), Nat.mul_div_cancel_left _ hgpos]
    have hgq : ((g : ℚ)) ≠ 0 := by exact_mod_cast hg2
    push_cast
    rw [mul_div_mul_left _ _ hgq]

theorem MQ.den_pos_add {a b : MQ} (ha : 0 < a.den) (hb : 0 < b.den) : 0 < (a.add b).den :=
  MQ.normalize_den_pos (Nat.mul_pos ha hb)

theorem MQ.den_pos_sub {a b : MQ} (ha : 0 < a.den) (hb : 0 < b.den) : 0 < (a.sub b).den :=
  MQ.normalize_den_pos (Nat.mul_pos ha hb)

theorem MQ.den_pos_abs {a : MQ} (ha : 0 < a.den) : 0 < a.abs.den := ha

theorem MQ.toRat_add {a b : MQ} (ha : 0 < a.den) (hb : 0 < b.den) :
    (a.add b).toRat = a.toRat + b.toRat := by
  unfold MQ.add
  rw [MQ.toRat_normalize]
  unfold MQ.toRat
  have ha2 : ((a.den : ℚ)) ≠ 0 := by positivity
  have hb2 : ((b.den : ℚ)) ≠ 0 := by positivity
  push_cast
  field_simp
  try ring

theorem MQ.toRat_sub {a b : MQ} (ha : 0 < a.den) (hb : 0 < b.den) :
    (a.sub b).toRat = a.toRat - b.toRat := by
  unfold MQ.sub
  rw [MQ.toRat_normalize]
  unfold MQ.toRat
  have ha2 : ((a.den : ℚ)) ≠ 0 := by positivity
  have hb2 : ((b.den : ℚ)) ≠ 0 := by positivity
  push_cast
  field_simp
  try ring

theorem MQ.toRat_abs (a : MQ) : a.abs.toRat = |a.toRat| := by
  unfold MQ.abs MQ.toRat
  rw [abs_div]
  simp

theorem MQ.lt_iff {a b : MQ} (ha : 0 < a.den) (hb : 0 < b.den) :
    (a.lt b = true) ↔ a.toRat < b.toRat := by
  unfold MQ.lt MQ.toRat
  rw [decide_eq_true_eq]
  rw [div_lt_div_iff₀ (by exact_mod_cast ha) (by exact_mod_cast hb)]
  constructor
  · intro h; exact_mod_cast h
  · intro h; exact_mod_cast h

theorem MQ.floor_eq {a : MQ} (ha : 0 < a.den) : a.floor = ⌊a.toRat⌋ := by
  unfold MQ.floor MQ.toRat
  rw [Int.fdiv_eq_ediv _ (by positivity), Rat.floor_intCast_div_natCast]

theorem MQ.roundJS_eq {a : MQ} (ha : 0 < a.den) : a.roundJS = ⌊a.toRat + 1 / 2⌋ := by
  unfold MQ.roundJS
  have h2 : (0:Nat) < (⟨1, 2⟩ : MQ).den := by decide
  rw [MQ.floor_eq (MQ.den_pos_add ha h2), MQ.toRat_add ha h2]
  norm_num [MQ.toRat]

theorem epsQ_toRat : epsQ.toRat = 1 / 1000 := by norm_num [epsQ, MQ.toRat]

theorem epsQ_den_pos : 0 < epsQ.den := by decide

theorem piLoopGo_shape : ∀ (ds : List Nat) (q : MQ) (s : String), piLoopGo q ds = some s →
    s = "0" ∨ ∃ (n : ℤ) (d : ℕ), s = piFracLatex n d ∧ d ∈ ds := by
  intro ds
  induction ds with
  | nil => intro q s h; simp [piLoopGo] at h
  | cons d rest ih =>
      intro q s h
      simp only [piLoopGo] at h
      split at h
      · rw [Option.some_inj] at h
        subst h
        split
        · left; rfl
        · right; exact ⟨_, d, rfl, List.mem_cons_self _ _⟩
      · rcases ih _ _ h with h1 | ⟨n, d2, h2, h3⟩
        · left; exact h1
        · right; exact ⟨n, d2, h2, List.mem_cons_of_mem _ h3⟩

/-- C8 amended: the formatting heuristic renders values within 1e-10 of zero
as "0" (the zero snap's own tolerance is the wider 1e-3); renders every value
within 1e-3 of an integer as that integer — even when the value is also
within tolerance of a rational multiple of pi, which is what the claim
missed; only values escaping the zero and integer snaps reach the pi test,
and formatting Math.PI/2 indeed yields the pi-fraction \frac\x7b\pi\x7d\x7b2\x7d;
every output is one of: "0", an integer string, a pi-fraction string with
denominator from the fixed set, a reduced fraction \frac\x7bn\x7d\x7bd\x7d with
d < 20 and n < 1000, or the precision-rounded decimal. -/
theorem c8_amended_formatting_rules :
    (∀ (q : MQ) (p : Option Nat), 0 < q.den → |q.toRat| < 1 / 10000000000 →
        formatNumberToLatex (some q) p = "0") ∧
    (∀ (q : MQ) (n : ℤ) (p : Option Nat), 0 < q.den → |q.toRat - (n : ℚ)| < 1 / 1000 →
        formatNumberToLatex (some q) p = toString n) ∧
    formatNumberToLatex (some (piQ.divi (MQ.ofInt 2))) none = "\\frac\x7b\\pi\x7d\x7b2\x7d" ∧
    (∀ (q : MQ) (p : Option Nat),
        formatNumberToLatex (some q) p = "0" ∨
        (∃ n : ℤ, formatNumberToLatex (some q) p = toString n) ∨
        (∃ n : ℕ, formatNumberToLatex (some q) p = toString n) ∨
        (∃ (n : ℤ) (d : ℕ), formatNumberToLatex (some q) p = piFracLatex n d ∧ d ∈ piDenoms) ∨
        (∃ n d : ℕ, formatNumberToLatex (some q) p = fracLatex n d ∧ d < 20 ∧ n < 1000) ∨
        formatNumberToLatex (some q) p = stripFixed q (p.getD 4)) := by
  refine ⟨?_, ?_, ?_, ?_⟩
  · intro q p hwf h
    have h1 : q.abs.lt epsQ = true := by
      rw [MQ.lt_iff (MQ.den_pos_abs hwf) epsQ_den_pos, MQ.toRat_abs, epsQ_toRat]
      linarith [abs_nonneg q.toRat]
    simp [formatNumberToLatex, h1]
  · intro q n p hwf h
    by_cases h0 : q.abs.lt epsQ = true
    · have habs : |q.toRat| < 1 / 1000 := by
        have := (MQ.lt_iff (MQ.den_pos_abs hwf) epsQ_den_pos).mp h0
        rwa [MQ.toRat_abs, epsQ_toRat] at this
      have hn0 : n = 0 := by
        have h2 : |(n : ℚ)| < 1 := by
          calc |(n : ℚ)| = |((n : ℚ) - q.toRat) + q.toRat| := by ring_nf
            _ ≤ |(n : ℚ) - q.toRat| + |q.toRat| := abs_add _ _
            _ = |q.toRat - (n : ℚ)| + |q.toRat| := by rw [abs_sub_comm]
            _ < 1 := by linarith
        have h3 : |n| < 1 := by exact_mod_cast h2
        rw [abs_lt] at h3
        omega
      subst hn0
      have hz : toString (0 : ℤ) = "0" := rfl
      simp [formatNumberToLatex, h0, hz]
    · have hround : q.roundJS = n := by
        rw [MQ.roundJS_eq hwf]
        rw [Int.floor_eq_iff]
        have := abs_lt.mp h
        constructor
        · linarith [this.1]
        · linarith [this.2]
      have h2 : ((q.sub (MQ.ofInt n)).abs).lt epsQ = true := by
        rw [MQ.lt_iff (MQ.den_pos_abs (MQ.den_pos_sub hwf Nat.one_pos)) epsQ_den_pos,
          MQ.toRat_abs, MQ.toRat_sub hwf Nat.one_pos, MQ.toRat_ofInt, epsQ_toRat]
        exact h
      simp [formatNumberToLatex, h0, hround, h2]
  · decide
  · intro q p
    by_cases h0 : q.abs.lt epsQ = true
    · left; simp [formatNumberToLatex, h0]
    · by_cases h1 : ((q.sub (MQ.ofInt q.roundJS)).abs).lt epsQ = true
      · right; left
        exact ⟨q.roundJS, by simp [formatNumberToLatex, h0, h1]⟩
      · cases hpi : piLoopGo q piDenoms with
        | some s =>
            rcases piLoopGo_shape _ _ _ hpi with hs | ⟨n, d, hs, hd⟩
            · left; simp [formatNumberToLatex, h0, h1, hpi, hs]
            · right; right; right; left
              exact ⟨n, d, by simp [formatNumberToLatex, h0, h1, hpi, hs], hd⟩
        | none =>
            by_cases hfr : ((reduceFrac q).2 < 20 && (reduceFrac q).1 < 1000) = true
            · by_cases hone : ((reduceFrac q).2 == 1) = true
              · right; right; left
                exact ⟨(reduceFrac q).1, by simp [formatNumberToLatex, h0, h1, hpi, hfr, hone]⟩
              · right; right; right; right; left
                refine ⟨(reduceFrac q).1, (reduceFrac q).2, by simp [formatNumberToLatex, h0, h1, hpi, hfr, hone], ?_, ?_⟩
                · have hh := (Bool.and_eq_true _ _).mp hfr
                  exact of_decide_eq_true hh.1
                · have hh := (Bool.and_eq_true _ _).mp hfr
                  exact of_decide_eq_true hh.2
            · right; right; right; right; right
              simp [formatNumberToLatex, h0, h1, hpi, hfr]


/-- Witness for C8's amended statement: 1.9995 is within 1e-3 of the integer
2 and formats as "2". -/
theorem c8_amended_formatting_witness :
    formatNumberToLatex (some ⟨19995, 10000⟩) none = toString (2 : ℤ) :=
  c8_amended_formatting_rules.2.1 ⟨19995, 10000⟩ 2 none (by decide) (by norm_num [MQ.toRat, abs_lt])

/-- The invariant of the candidate-collection fold: every accepted
candidate's 3-decimal fingerprint is recorded, and the accepted candidates
have pairwise distinct fingerprints. -/
def interHashInv (st : List InterCand × List String) : Prop :=
  (∀ c ∈ st.1, toFixedStr c.x 3 ∈ st.2) ∧
  List.Pairwise (fun a b => toFixedStr a.x 3 ≠ toFixedStr b.x 3) st.1

theorem addCandidate_inv (e : Expr) (sc : Scope) (st : List InterCand × List String) (x : V) (latex : Option String)
    (h : interHashInv st) : interHashInv (addCandidate e sc st x latex) := by
  unfold addCandidate
  cases x with
  | none => exact h
  | some xq =>
      dsimp only
      split
      · exact h
      · rename_i hcon
        have hnotmem : toFixedStr xq 3 ∉ st.2 := by
          intro hm
          simp [hm] at hcon
        split
        · rename_i yq heval
          constructor
          · intro c hc
            rcases List.mem_append.mp hc with hold | hnew
            · exact List.mem_append_left _ (h.1 c hold)
            · rw [List.mem_singleton.mp hnew]
              exact List.mem_append_right _ (List.mem_singleton.mpr rfl)
          · rw [List.pairwise_append]
            refine ⟨h.2, List.pairwise_singleton _ _, ?_⟩
            intro a ha b hb
            rw [List.mem_singleton.mp hb]
            intro heq
            exact hnotmem (heq ▸ h.1 a ha)
        · exact ⟨fun c hc => List.mem_append_left _ (h.1 c hc), h.2⟩

theorem interFold_inv : ∀ (roots : List CASRoot) (e : Expr) (sc : Scope) (st : List InterCand × List String),
    interHashInv st → interHashInv (roots.foldl (interRootStep e sc) st) := by
  intro roots
  induction roots with
  | nil => intro e sc st h; exact h
  | cons r rest ih =>
      intro e sc st h
      simp only [List.foldl_cons]
      apply ih
      unfold interRootStep
      cases r.val with
      | none => exact h
      | some xq =>
          dsimp only
          split
          · exact addCandidate_inv _ _ _ _ _ h
          · exact addCandidate_inv _ _ _ _ _ h

theorem interCandidates_pairwise_hashes (cas : CAS) (f1 f2 : MathFunction) (params : List MathParam) (scope : Scope) :
    List.Pairwise (fun a b => toFixedStr a.x 3 ≠ toFixedStr b.x 3) (interCandidates cas f1 f2 params scope) := by
  unfold interCandidates
  split
  · split
    · exact (interFold_inv _ _ _ ([], []) ⟨by simp, by simp⟩).2
    · exact List.Pairwise.nil
  · exact List.Pairwise.nil

/-- The sort key of the nearX selection, in rational form: the distance of a
candidate's x to the target. -/
def interKeyQ (t : MQ) (c : InterCand) : ℚ := |c.x.toRat - t.toRat|

theorem interKey_lt_iff {t : MQ} {a b : InterCand} (ht : 0 < t.den) (ha : 0 < a.x.den) (hb : 0 < b.x.den) :
    ((((a.x.sub t).abs).lt ((b.x.sub t).abs)) = true) ↔ interKeyQ t a < interKeyQ t b := by
  rw [MQ.lt_iff (MQ.den_pos_abs (MQ.den_pos_sub ha ht)) (MQ.den_pos_abs (MQ.den_pos_sub hb ht)),
    MQ.toRat_abs, MQ.toRat_abs, MQ.toRat_sub ha ht, MQ.toRat_sub hb ht]
  rfl

theorem insertByDist_mem (t : MQ) (c : InterCand) : ∀ (l : List InterCand) (x : InterCand),
    x ∈ insertByDist t c l ↔ x = c ∨ x ∈ l := by
  intro l
  induction l with
  | nil => intro x; simp [insertByDist]
  | cons d ds ih =>
      intro x
      simp only [insertByDist]
      split
      · simp [List.mem_cons]
      · simp only [List.mem_cons, ih x]
        tauto

/-- The head of the list is a minimum of its members for the rational key. -/
def headMin (t : MQ) (s : List InterCand) : Prop :=
  ∀ (c : InterCand) (rest : List InterCand), s = c :: rest → ∀ d ∈ s, interKeyQ t c ≤ interKeyQ t d

theorem insertByDist_headMin {t : MQ} {c : InterCand} {acc : List InterCand}
    (ht : 0 < t.den) (hc : 0 < c.x.den) (hacc : ∀ d ∈ acc, 0 < d.x.den) (hmin : headMin t acc) :
    headMin t (insertByDist t c acc) := by
  cases acc with
  | nil =>
      intro c2 rest heq d hd
      simp only [insertByDist] at heq hd
      injection heq with h1 h2
      subst h1
      rcases List.mem_singleton.mp hd with rfl
      exact le_refl _
  | cons h hs =>
      simp only [insertByDist]
      split
      · rename_i hlt
        intro c2 rest heq d hd
        injection heq with h1 h2
        subst h1
        subst h2
        have hkey : interKeyQ t c < interKeyQ t h :=
          (interKey_lt_iff ht hc (hacc h (List.mem_cons_self _ _))).mp hlt
        rcases List.mem_cons.mp hd with rfl | hd2
        · exact le_refl _
        · have := hmin h hs rfl d hd2
          linarith
      · rename_i hnlt
        intro c2 rest heq d hd
        injection heq with h1 h2
        subst h1
        subst h2
        have hkey : interKeyQ t h ≤ interKeyQ t c := by
          have hnot := (interKey_lt_iff ht hc (hacc h (List.mem_cons_self _ _))).not.mp hnlt
          exact le_of_not_lt hnot
        rcases List.mem_cons.mp hd with rfl | hd2
        · exact le_refl _
        · rcases (insertByDist_mem t c hs d).mp hd2 with rfl | hd3
          · exact hkey
          · exact hmin h hs rfl d (List.mem_cons_of_mem _ hd3)

theorem sortFold_headMin {t : MQ} (ht : 0 < t.den) :
    ∀ (l acc : List InterCand), (∀ d ∈ l, 0 < d.x.den) → (∀ d ∈ acc, 0 < d.x.den) → headMin t acc →
      (headMin t (l.foldl (fun a c => insertByDist t c a) acc) ∧
       ∀ d ∈ l.foldl (fun a c => insertByDist t c a) acc, d ∈ acc ∨ d ∈ l) := by
  intro l
  induction l with
  | nil => intro acc hl hacc hmin; exact ⟨hmin, fun d hd => Or.inl hd⟩
  | cons c cs ih =>
      intro acc hl hacc hmin
      simp only [List.foldl_cons]
      have hc : 0 < c.x.den := hl c (List.mem_cons_self _ _)
      have hacc2 : ∀ d ∈ insertByDist t c acc, 0 < d.x.den := by
        intro d hd
        rcases (insertByDist_mem t c acc d).mp hd with rfl | hd2
        · exact hc
        · exact hacc d hd2
      have hl2 : ∀ d ∈ cs, 0 < d.x.den := fun d hd => hl d (List.mem_cons_of_mem _ hd)
      obtain ⟨hm, hmem⟩ := ih (insertByDist t c acc) hl2 hacc2 (insertByDist_headMin ht hc hacc hmin)
      refine ⟨hm, ?_⟩
      intro d hd
      rcases hmem d hd with hd2 | hd2
      · rcases (insertByDist_mem t c acc d).mp hd2 with rfl | hd3
        · exact Or.inr (List.mem_cons_self _ _)
        · exact Or.inl hd3
      · exact Or.inr (List.mem_cons_of_mem _ hd2)

theorem sortFold_mem {t : MQ} : ∀ (l acc : List InterCand) (d : InterCand),
    (d ∈ acc ∨ d ∈ l) → d ∈ l.foldl (fun a c => insertByDist t c a) acc := by
  intro l
  induction l with
  | nil =>
      intro acc d h
      rcases h with h | h
      · exact h
      · simp at h
  | cons c cs ih =>
      intro acc d h
      simp only [List.foldl_cons]
      apply ih
      rcases h with h | h
      · exact Or.inl ((insertByDist_mem t c acc d).mpr (Or.inr h))
      · rcases List.mem_cons.mp h with heq | h2
        · exact Or.inl ((insertByDist_mem t c acc d).mpr (Or.inl heq))
        · exact Or.inr h2

theorem sortByDist_head_closest {t : MQ} {l : List InterCand} {c : InterCand} {rest : List InterCand}
    (ht : 0 < t.den) (hl : ∀ d ∈ l, 0 < d.x.den) (h : sortByDist t l = c :: rest) :
    c ∈ l ∧ ∀ d ∈ l, interKeyQ t c ≤ interKeyQ t d := by
  obtain ⟨hm, hmem⟩ := sortFold_headMin ht l [] hl (by simp) (by intro c2 rest2 heq; simp at heq)
  unfold sortByDist at h
  constructor
  · have := hmem c (by rw [h]; exact List.mem_cons_self _ _)
    rcases this with h2 | h2
    · simp at h2
    · exact h2
  · intro d hd
    have hdl : d ∈ List.foldl (fun a c => insertByDist t c a) [] l := sortFold_mem l [] d (Or.inr hd)
    rw [h] at hdl
    exact hm c rest h d (h ▸ hdl)

/-- C7 amended: intersection of a curve with itself (equal ids) is empty;
candidate roots are deduplicated by their 3-decimal fingerprint before
acceptance; when nearX is supplied the result is either empty or exactly the
head of the distance-sorted candidate list, kept only when within 5 world
units of nearX — when the closest candidate is farther, the result is empty
(not "all candidates"); all candidates are kept exactly when nearX is
absent; the head of the distance sort is genuinely a closest candidate (for
well-formed values); and the y = x versus y = x^2 scene with nearX = 0.9
returns only the x = 1 candidate. -/
theorem c7_amended_intersection_selection :
    (∀ (cas : CAS) (f1 f2 : MathFunction) (params : List MathParam) (precision : Nat)
        (bounds : Option Bounds) (targetX : Option MQ) (scope : Scope),
        f1.id = f2.id → solveIntersection cas f1 f2 params precision bounds targetX scope = []) ∧
    (∀ (cas : CAS) (f1 f2 : MathFunction) (params : List MathParam) (scope : Scope),
        List.Pairwise (fun a b => toFixedStr a.x 3 ≠ toFixedStr b.x 3) (interCandidates cas f1 f2 params scope)) ∧
    (∀ (cas : CAS) (f1 f2 : MathFunction) (params : List MathParam) (precision : Nat)
        (bounds : Option Bounds) (t : MQ) (scope : Scope),
        solveIntersection cas f1 f2 params precision bounds (some t) scope = [] ∨
        ∃ c rest, sortByDist t (interCandidates cas f1 f2 params scope) = c :: rest ∧
          ((c.x.sub t).abs).lt (MQ.ofInt 5) = true ∧
          solveIntersection cas f1 f2 params precision bounds (some t) scope = [formatInterResult precision c]) ∧
    (∀ (t : MQ) (l : List InterCand) (c : InterCand) (rest : List InterCand),
        0 < t.den → (∀ d ∈ l, 0 < d.x.den) → sortByDist t l = c :: rest →
        c ∈ l ∧ ∀ d ∈ l, interKeyQ t c ≤ interKeyQ t d) ∧
    (∀ (cas : CAS) (f1 f2 : MathFunction) (params : List MathParam) (precision : Nat)
        (bounds : Option Bounds) (scope : Scope), f1.id ≠ f2.id →
        solveIntersection cas f1 f2 params precision bounds none scope =
          (interCandidates cas f1 f2 params scope).map (formatInterResult precision)) ∧
    solveIntersection c7Cas c7Lin c7Sq [] 2 none (some ⟨9, 10⟩) [] =
      [⟨some (MQ.ofInt 1), some (MQ.ofInt 1), "I(1, \\approx 1)"⟩] := by
  refine ⟨?_, ?_, ?_, ?_, ?_, ?_⟩
  · intro cas f1 f2 params precision bounds targetX scope h
    simp [solveIntersection, h]
  · intro cas f1 f2 params scope
    exact interCandidates_pairwise_hashes cas f1 f2 params scope
  · intro cas f1 f2 params precision bounds t scope
    by_cases hid : f1.id = f2.id
    · left; simp [solveIntersection, hid]
    · cases hsort : sortByDist t (interCandidates cas f1 f2 params scope) with
      | nil => left; simp [solveIntersection, hid, hsort]
      | cons c rest =>
          by_cases hlt : (((c.x.sub t).abs).lt (MQ.ofInt 5)) = true
          · right
            exact ⟨c, rest, rfl, hlt, by simp [solveIntersection, hid, hsort, hlt]⟩
          · left; simp [solveIntersection, hid, hsort, hlt]
  · intro t l c rest ht hl h
    exact sortByDist_head_closest ht hl h
  · intro cas f1 f2 params precision bounds scope h
    simp [solveIntersection, h]
  · decide


/-- Witness for C7's amended statement: the self-intersection conjunct at the
y = x curve, and the closest-head conjunct on the concrete candidate pair
(x = 0 and x = 1) sorted toward 0.9, whose head is the x = 1 candidate. -/
theorem c7_amended_intersection_witness :
    solveIntersection c7Cas c7Lin c7Lin [] 2 none none [] = [] ∧
    ((⟨MQ.ofInt 1, MQ.ofInt 1, some "1"⟩ : InterCand) ∈
        [(⟨MQ.ofInt 0, MQ.ofInt 0, some "0"⟩ : InterCand), ⟨MQ.ofInt 1, MQ.ofInt 1, some "1"⟩] ∧
      ∀ d ∈ [(⟨MQ.ofInt 0, MQ.ofInt 0, some "0"⟩ : InterCand), ⟨MQ.ofInt 1, MQ.ofInt 1, some "1"⟩],
        interKeyQ ⟨9, 10⟩ ⟨MQ.ofInt 1, MQ.ofInt 1, some "1"⟩ ≤ interKeyQ ⟨9, 10⟩ d) := by
  constructor
  · exact c7_amended_intersection_selection.1 c7Cas c7Lin c7Lin [] 2 none none [] rfl
  · exact c7_amended_intersection_selection.2.2.2.1 ⟨9, 10⟩
      [⟨MQ.ofInt 0, MQ.ofInt 0, some "0"⟩, ⟨MQ.ofInt 1, MQ.ofInt 1, some "1"⟩]
      ⟨MQ.ofInt 1, MQ.ofInt 1, some "1"⟩ [⟨MQ.ofInt 0, MQ.ofInt 0, some "0"⟩]
      (by decide) (by decide) (by decide)

end GraphCalc
